import Mathlib

/-!
Verification of the thinkingscript runtime policy / sandbox / agent core.

Shallow embedding of the Go sources of `thinkingscript/runtime`:

* `internal/approval/policy.go` — policy data model and pattern matching
* `internal/approval/approval.go` — the `Approver.ApprovePath` cascade
* `internal/sandbox/bridge_net.go` — SSRF guard of `net.fetch`
* `internal/config` (`part_014`) — content fingerprint and cache directory
* `internal/boot` (`TryMemoryJS`) — memory.js boot classification
* `internal/agent/agent.go` — the agent conversation loop
* `internal/sandbox/sandbox.go` — `resolvePath` (the revision with
  `WritablePaths`, modelled from the spec where noted)

Strings are modelled by Lean `String`; the path separator is `"/"` (the
code targets Unix: `filepath.Separator` is `'/'`).  Helper string
predicates are defined over `String.data` so that all definitions are
executable and kernel-reducible.
-/

namespace ThinkingScript


/-- `strings.HasPrefix s pre` of Go: `pre` is a prefix of `s`. -/
def hasPrefixStr (s pre : String) : Bool :=
  pre.data.isPrefixOf s.data

/-- `strings.HasSuffix s suf` of Go: `suf` is a suffix of `s`. -/
def hasSuffixStr (s suf : String) : Bool :=
  suf.data.isSuffixOf s.data

/-- Drop the last character of a string (Go `strings.TrimSuffix pat "*"`
when the suffix is the single character `*`). -/
def dropLastChar (s : String) : String :=
  String.mk s.data.dropLast

/-- Drop the first character of a string (Go `strings.TrimPrefix pat "*"`
when the prefix is the single character `*`). -/
def dropFirstChar (s : String) : String :=
  String.mk s.data.tail

/-! ## Policy data model — `internal/approval/policy.go` -/

/-- `Approval` values: `allow`, `deny`, `prompt`. -/
inductive Approval where
  | allow
  | deny
  | prompt
deriving DecidableEq, Repr

/-- A single path permission (`PathEntry`).  The bookkeeping fields
`Source` and `Created` of the Go struct never enter a decision and are
omitted. -/
structure PathEntry where
  path : String
  mode : String
  approval : Approval
deriving DecidableEq, Repr

/-- `PathPolicy`: default approval, ordinary entries and protected
entries (the latter only populated in the global policy). -/
structure PathPolicy where
  dfault : Approval
  entries : List PathEntry
  Protected : List PathEntry
deriving DecidableEq, Repr

/-- A single environment-variable permission (`EnvEntry`). -/
structure EnvEntry where
  name : String
  approval : Approval
deriving DecidableEq, Repr

/-- `EnvPolicy`. -/
structure EnvPolicy where
  dfault : Approval
  entries : List EnvEntry
deriving DecidableEq, Repr

/-- A single outbound-host permission (`HostEntry`). -/
structure HostEntry where
  host : String
  approval : Approval
deriving DecidableEq, Repr

/-- `HostPolicy`. -/
structure HostPolicy where
  dfault : Approval
  entries : List HostEntry
deriving DecidableEq, Repr

/-- `Policy`: the parts of the policy document the claims exercise
(paths, env, net.hosts).  `net.listen` never enters `ApprovePath`,
`ApproveEnvRead` or `ApproveNet` and is omitted. -/
structure Policy where
  paths : PathPolicy
  env : EnvPolicy
  hosts : HostPolicy
deriving DecidableEq, Repr

/-- `pathMatches pattern path`: exact match, or `pattern` is a directory
containing `path` (`strings.HasPrefix(path, pattern+"/")`). -/
def pathMatches (pattern path : String) : Bool :=
  pattern == path || hasPrefixStr path (pattern ++ "/")

/-- `envMatches pattern name`: exact match, or suffix wildcard
(`AWS_*` matches `AWS_SECRET_KEY`). -/
def envMatches (pattern name : String) : Bool :=
  pattern == name ||
    (hasSuffixStr pattern "*" && hasPrefixStr name (dropLastChar pattern))

/-- `hostMatches pattern host`: exact match, or leading wildcard
(`*.github.com` matches `api.github.com`). -/
def hostMatches (pattern host : String) : Bool :=
  pattern == host ||
    (hasPrefixStr pattern "*." && hasSuffixStr host (dropFirstChar pattern))

/-- One step of the best-match fold of `PathPolicy.MatchPath`: keep the
entry whose matching pattern is strictly longer than the best so far. -/
def matchPathStep (target : String) (acc : Option PathEntry × Nat)
    (e : PathEntry) : Option PathEntry × Nat :=
  if pathMatches e.path target && decide (e.path.data.length > acc.2) then
    (some e, e.path.data.length)
  else
    acc

/-- `PathPolicy.MatchPath`: the entry with the longest matching pattern
(`bestLen` starts at `0`; on equal lengths the earlier entry is kept). -/
def PathPolicy.MatchPath (p : PathPolicy) (targetPath : String) :
    Option PathEntry :=
  (p.entries.foldl (matchPathStep targetPath) (none, 0)).1

/-- `EnvPolicy.MatchEnv`: the first entry whose pattern matches. -/
def EnvPolicy.MatchEnv (p : EnvPolicy) (name : String) : Option EnvEntry :=
  p.entries.find? (fun e => envMatches e.name name)

/-- `HostPolicy.MatchHost`: the first entry whose pattern matches. -/
def HostPolicy.MatchHost (p : HostPolicy) (host : String) :
    Option HostEntry :=
  p.entries.find? (fun e => hostMatches e.host host)

/-! ## The Approver path cascade — `internal/approval/approval.go` -/

/-- `opToModeChar`: read/list → `r`, write → `w`, delete → `d`,
anything else → `r`.  (Go passes one-character strings; we use `Char`.) -/
def opToModeChar (op : String) : Char :=
  if op == "read" || op == "list" then 'r'
  else if op == "write" then 'w'
  else if op == "delete" then 'd'
  else 'r'

/-- `hasMode mode c`: `strings.Contains(mode, char)` for the
one-character mode strings `r`/`w`/`d`. -/
def hasMode (mode : String) (c : Char) : Bool :=
  mode.data.contains c

/-- Verdict of an approval value when it is terminal: `allow`/`deny`
decide, `prompt` falls through (`none`). -/
def approvalVerdict : Approval → Option Bool
  | .allow => some true
  | .deny => some false
  | .prompt => none

/-- The `for … range Protected` loop of `ApprovePath`: first entry that
matches the pattern *and* carries the mode character decides when its
approval is allow or deny; a matching `prompt` entry is skipped. -/
def scanProtected (entries : List PathEntry) (path : String) (c : Char) :
    Option Bool :=
  match entries with
  | [] => none
  | e :: rest =>
    if pathMatches e.path path && hasMode e.mode c then
      match e.approval with
      | .deny => some false
      | .allow => some true
      | .prompt => scanProtected rest path c
    else
      scanProtected rest path c

/-- Verdict of a matched (ordinary) policy entry: only consulted when it
carries the mode character. -/
def entryVerdict (e? : Option PathEntry) (c : Char) : Option Bool :=
  match e? with
  | some e => if hasMode e.mode c then approvalVerdict e.approval else none
  | none => none

/-- The state of an `Approver` relevant to `ApprovePath`
(thought directory, the two policies, the session-wide FS allow flag). -/
structure ApproverState where
  thoughtDir : String
  globalPolicy : Policy
  thoughtPolicy : Policy
  sessionAllowFS : Bool
deriving Repr

/-- Outcome of the `ApprovePath` cascade before any terminal prompt:
`allowed` / `denied` are decisions, `wouldPrompt` is reached when the
whole cascade is inconclusive (the Go code then returns `false` if
stderr is not a TTY, else prompts the user). -/
inductive PathOutcome where
  | allowed
  | denied
  | wouldPrompt
deriving DecidableEq, Repr, BEq

/-- `Approver.ApprovePath`, translated up to the terminal prompt.
Order of the Go code: (1) the `<thoughtDir>/policy.json` guard
(equality or plain string prefix — note: no separator is appended);
(2) the scan of the **global** protected entries; (3) the session-wide
FS allow flag; (4) the thought policy best match; (5) the global policy
best match; (6) the thought default; (7) the global default;
(8) otherwise prompt (or `false` without a TTY). -/
def approvePathOutcome (a : ApproverState) (op path : String) :
    PathOutcome :=
  if a.thoughtDir != "" &&
      (path == a.thoughtDir ++ "/policy.json" ||
        hasPrefixStr path (a.thoughtDir ++ "/policy.json")) then
    .denied
  else
    match scanProtected a.globalPolicy.paths.Protected path (opToModeChar op) with
    | some true => .allowed
    | some false => .denied
    | none =>
      if a.sessionAllowFS then .allowed
      else
        match entryVerdict (a.thoughtPolicy.paths.MatchPath path) (opToModeChar op) with
        | some true => .allowed
        | some false => .denied
        | none =>
          match entryVerdict (a.globalPolicy.paths.MatchPath path) (opToModeChar op) with
          | some true => .allowed
          | some false => .denied
          | none =>
            match approvalVerdict a.thoughtPolicy.paths.dfault with
            | some true => .allowed
            | some false => .denied
            | none =>
              match approvalVerdict a.globalPolicy.paths.dfault with
              | some true => .allowed
              | some false => .denied
              | none => .wouldPrompt

/-- `Approver.ApprovePath` when stderr is not a TTY: an inconclusive
cascade returns `false` without prompting. -/
def approvePathNoTTY (a : ApproverState) (op path : String) : Bool :=
  approvePathOutcome a op path == .allowed

/-- `NewPolicy`: empty policy with `prompt` defaults. -/
def NewPolicy : Policy :=
  { paths := { dfault := .prompt, entries := [], Protected := [] }
    env := { dfault := .prompt, entries := [] }
    hosts := { dfault := .prompt, entries := [] } }

/-! ## Example policies and approver states used by the claims -/

/-- Global policy of the C5 counterexample: the protected list carries an
allow entry for `/p` *before* a deny entry for `/p`, both with mode `r`. -/
def c5Global : Policy :=
  ⟨⟨.prompt, [], [⟨"/p", "r", .allow⟩, ⟨"/p", "r", .deny⟩]⟩,
    ⟨.prompt, []⟩, ⟨.prompt, []⟩⟩

/-- Thought policy of the C5 counterexample: an allow entry for `/p`. -/
def c5Thought : Policy :=
  ⟨⟨.prompt, [⟨"/p", "r", .allow⟩], []⟩, ⟨.prompt, []⟩, ⟨.prompt, []⟩⟩

/-- Approver state of the C5 counterexample. -/
def c5State : ApproverState := ⟨"", c5Global, c5Thought, false⟩

/-- Approver state witnessing the amended C5: a protected deny for `/p`
with the session flag set and a thought allow entry for `/p`. -/
def c5WitState : ApproverState :=
  ⟨"", ⟨⟨.prompt, [], [⟨"/p", "rwd", .deny⟩]⟩, ⟨.prompt, []⟩, ⟨.prompt, []⟩⟩,
    ⟨⟨.allow, [⟨"/p", "rwd", .allow⟩], []⟩, ⟨.prompt, []⟩, ⟨.prompt, []⟩⟩,
    true⟩

/-- Thought policy of the C6 counterexample: `/a` readable (allow, mode
`r`) and `/a/b` writable (allow, mode `w`). -/
def c6Thought : Policy :=
  ⟨⟨.prompt, [⟨"/a", "r", .allow⟩, ⟨"/a/b", "w", .allow⟩], []⟩,
    ⟨.prompt, []⟩, ⟨.prompt, []⟩⟩

/-- Approver state of the C6 counterexample. -/
def c6State : ApproverState := ⟨"", NewPolicy, c6Thought, false⟩

/-- Thought policy of the amended C6 example: `/a` and `/a/b` both carry
the requested mode `r`; the decision comes from `/a/b`. -/
def c6bThought : Policy :=
  ⟨⟨.prompt, [⟨"/a", "r", .allow⟩, ⟨"/a/b", "r", .deny⟩], []⟩,
    ⟨.prompt, []⟩, ⟨.prompt, []⟩⟩

/-! ## SSRF guard — `internal/sandbox/bridge_net.go` -/

/-- An IP address as its byte list (4 bytes for IPv4, 16 for IPv6);
bytes are `Nat` values below 256. -/
abbrev IP := List Nat

/-- Byte `i` of an address (all uses are within bounds). -/
def ipByte (ip : IP) (i : Nat) : Nat := ip.getD i 0

/-- `net.IP.To4`: the 4-byte form of an IPv4 address or of an
IPv4-mapped IPv6 address (`::ffff:a.b.c.d`), else `none`. -/
def toIPv4 (ip : IP) : Option IP :=
  if ip.length == 4 then some ip
  else if ip.length == 16 && ip.take 10 == List.replicate 10 0 &&
      (ip.drop 10).take 2 == [255, 255] then
    some (ip.drop 12)
  else none

/-- `net.IP.IsLoopback`: `127.0.0.0/8` for IPv4, `::1` for IPv6. -/
def isLoopback (ip : IP) : Bool :=
  match toIPv4 ip with
  | some v4 => ipByte v4 0 == 127
  | none => ip == List.replicate 15 0 ++ [1]

/-- `net.IP.IsLinkLocalUnicast`: `169.254.0.0/16` for IPv4,
`fe80::/10` for IPv6. -/
def isLinkLocalUnicast (ip : IP) : Bool :=
  match toIPv4 ip with
  | some v4 => ipByte v4 0 == 169 && ipByte v4 1 == 254
  | none =>
    ip.length == 16 && ipByte ip 0 == 0xfe &&
      (ipByte ip 1).land 0xc0 == 0x80

/-- `net.IP.IsLinkLocalMulticast`: `224.0.0.0/24` for IPv4,
`ff02::/16` for IPv6. -/
def isLinkLocalMulticast (ip : IP) : Bool :=
  match toIPv4 ip with
  | some v4 => ipByte v4 0 == 224 && ipByte v4 1 == 0 && ipByte v4 2 == 0
  | none =>
    ip.length == 16 && ipByte ip 0 == 0xff &&
      (ipByte ip 1).land 0x0f == 0x02

/-- `isPrivateIP` of bridge_net.go: loopback, link-local (unicast or
multicast), and for IPv4 the ranges 10.0.0.0/8, 172.16.0.0/12,
192.168.0.0/16 and 127.0.0.0/8. -/
def isPrivateIP (ip : IP) : Bool :=
  isLoopback ip ||
    (isLinkLocalUnicast ip || isLinkLocalMulticast ip) ||
    (match toIPv4 ip with
     | some v4 =>
       ipByte v4 0 == 10 ||
         (ipByte v4 0 == 172 && decide (16 ≤ ipByte v4 1) &&
           decide (ipByte v4 1 ≤ 31)) ||
         (ipByte v4 0 == 192 && ipByte v4 1 == 168) ||
         ipByte v4 0 == 127
     | none => false)

/-- Outcome of the host checks of `net.fetch` before any HTTP request:
either the request may proceed, or a JS `Error` is thrown. -/
inductive FetchAuth where
  | proceed
  | jsError (msg : String)
deriving DecidableEq, Repr

/-- The pre-request host handling of `net.fetch` (bridge_net.go):
`parsedIP` models `net.ParseIP(host)` (`some ip` iff the hostname is a
literal IP); `lookup` models `net.LookupIP(host)` (`some ips` on
success, `none` on a lookup error, in which case the Go code proceeds
to the approval step).  `approve` is the configured `ApproveNet`
callback (`none` when no handler is configured; the error return of the
Go callback is not exercised by the claims and is omitted). -/
def netFetchAuthorize (host : String) (parsedIP : Option IP)
    (lookup : Option (List IP)) (approve : Option (String → Bool)) :
    FetchAuth :=
  match parsedIP with
  | some ip =>
    if isPrivateIP ip then
      .jsError ("net.fetch: access to private IP " ++ host ++ " denied")
    else
      netApprovalStep host approve
  | none =>
    match lookup with
    | some ips =>
      if ips.any isPrivateIP then
        .jsError ("net.fetch: " ++ host ++
          " resolves to private IP, access denied")
      else
        netApprovalStep host approve
    | none => netApprovalStep host approve
where
  /-- The approval step that follows the SSRF guard. -/
  netApprovalStep (host : String) (approve : Option (String → Bool)) :
      FetchAuth :=
    match approve with
    | some f =>
      if f host then .proceed
      else .jsError ("net.fetch: access to " ++ host ++ " denied")
    | none => .jsError "net.fetch: network access denied (no approval handler)"

/-- The address ranges named by the claim, stated over raw bytes:
IPv4 loopback (127/8), IPv4 link-local (169.254/16), 10/8,
172.16/12, 192.168/16; IPv6 loopback `::1` and link-local `fe80::/10`. -/
def claimedPrivateRange (ip : IP) : Prop :=
  (∃ b1 b2 b3 b4, ip = [b1, b2, b3, b4] ∧
    (b1 = 127 ∨ (b1 = 169 ∧ b2 = 254) ∨ b1 = 10 ∨
      (b1 = 172 ∧ 16 ≤ b2 ∧ b2 ≤ 31) ∨ (b1 = 192 ∧ b2 = 168))) ∨
  ip = List.replicate 15 0 ++ [1] ∨
  (∃ b1 rest, ip = 0xfe :: b1 :: rest ∧ rest.length = 14 ∧
    b1.land 0xc0 = 0x80)

/-! ## Fingerprint and cache directory — `internal/config` (`part_014`)

`crypto/sha256` is modelled by an executable SHA-256 over byte lists
(bytes as `Nat` with explicit `% 2^32` word arithmetic). -/

/-- Truncation to a 32-bit word. -/
def w32 (n : Nat) : Nat := n % 4294967296

/-- 32-bit right rotation. -/
def rotr32 (n x : Nat) : Nat := w32 ((x >>> n) ||| (x <<< (32 - n)))

/-- The 64 SHA-256 round constants (decimal). -/
def sha256K : List Nat :=
  [1116352408, 1899447441, 3049323471, 3921009573, 961987163,
   1508970993, 2453635748, 2870763221, 3624381080, 310598401,
   607225278, 1426881987, 1925078388, 2162078206, 2614888103,
   3248222580, 3835390401, 4022224774, 264347078, 604807628,
   770255983, 1249150122, 1555081692, 1996064986, 2554220882,
   2821834349, 2952996808, 3210313671, 3336571891, 3584528711,
   113926993, 338241895, 666307205, 773529912, 1294757372,
   1396182291, 1695183700, 1986661051, 2177026350, 2456956037,
   2730485921, 2820302411, 3259730800, 3345764771, 3516065817,
   3600352804, 4094571909, 275423344, 430227734, 506948616,
   659060556, 883997877, 958139571, 1322822218, 1537002063,
   1747873779, 1955562222, 2024104815, 2227730452, 2361852424,
   2428436474, 2756734187, 3204031479, 3329325298]

/-- The eight 32-bit words of a SHA-256 state. -/
structure Hash8 where
  w0 : Nat
  w1 : Nat
  w2 : Nat
  w3 : Nat
  w4 : Nat
  w5 : Nat
  w6 : Nat
  w7 : Nat
deriving DecidableEq, Repr

/-- SHA-256 initial state (decimal). -/
def sha256H0 : Hash8 :=
  ⟨1779033703, 3144134277, 1013904242, 2773480762,
   1359893119, 2600822924, 528734635, 1541459225⟩

/-- Big-endian byte decomposition of `n` into `k` bytes. -/
def toBytesBE (k n : Nat) : List Nat :=
  (List.range k).map (fun i => (n >>> (8 * (k - 1 - i))) % 256)

/-- The sixteen big-endian message words of a 64-byte chunk. -/
def chunkWords (chunk : List Nat) : List Nat :=
  (List.range 16).map (fun i =>
    w32 ((chunk.getD (4 * i) 0) <<< 24 ||| (chunk.getD (4 * i + 1) 0) <<< 16 |||
      (chunk.getD (4 * i + 2) 0) <<< 8 ||| chunk.getD (4 * i + 3) 0))

/-- Message-schedule extension step functions. -/
def smallSigma0 (x : Nat) : Nat :=
  w32 (rotr32 7 x ^^^ rotr32 18 x ^^^ (x >>> 3))

/-- Second small sigma of the message schedule. -/
def smallSigma1 (x : Nat) : Nat :=
  w32 (rotr32 17 x ^^^ rotr32 19 x ^^^ (x >>> 10))

/-- First big sigma of the compression function. -/
def bigSigma0 (x : Nat) : Nat :=
  w32 (rotr32 2 x ^^^ rotr32 13 x ^^^ rotr32 22 x)

/-- Second big sigma of the compression function. -/
def bigSigma1 (x : Nat) : Nat :=
  w32 (rotr32 6 x ^^^ rotr32 11 x ^^^ rotr32 25 x)

/-- Extend the 16 message words by `n` further schedule words. -/
def extendSchedule (w : List Nat) : Nat → List Nat
  | 0 => w
  | n + 1 =>
    let i := w.length
    let wi := w32 (smallSigma1 (w.getD (i - 2) 0) + w.getD (i - 7) 0 +
      smallSigma0 (w.getD (i - 15) 0) + w.getD (i - 16) 0)
    extendSchedule (w ++ [wi]) n

/-- One SHA-256 compression round for constant/word pair `kw`. -/
def sha256Round (st : Hash8) (kw : Nat × Nat) : Hash8 :=
  let ch := w32 ((st.w4 &&& st.w5) ^^^ ((st.w4 ^^^ 0xffffffff) &&& st.w6))
  let maj := w32 ((st.w0 &&& st.w1) ^^^ (st.w0 &&& st.w2) ^^^ (st.w1 &&& st.w2))
  let t1 := w32 (st.w7 + bigSigma1 st.w4 + ch + kw.1 + kw.2)
  let t2 := w32 (bigSigma0 st.w0 + maj)
  ⟨w32 (t1 + t2), st.w0, st.w1, st.w2, w32 (st.w3 + t1), st.w4, st.w5, st.w6⟩

/-- Process one 64-byte chunk. -/
def processChunk (st : Hash8) (chunk : List Nat) : Hash8 :=
  let w := extendSchedule (chunkWords chunk) 48
  let r := (sha256K.zip w).foldl sha256Round st
  ⟨w32 (st.w0 + r.w0), w32 (st.w1 + r.w1), w32 (st.w2 + r.w2),
   w32 (st.w3 + r.w3), w32 (st.w4 + r.w4), w32 (st.w5 + r.w5),
   w32 (st.w6 + r.w6), w32 (st.w7 + r.w7)⟩

/-- SHA-256 padding: `0x80`, zeros to 56 mod 64, 8-byte big-endian bit
length. -/
def sha256Pad (msg : List Nat) : List Nat :=
  let padZeros := (119 - msg.length % 64) % 64
  msg ++ [0x80] ++ List.replicate padZeros 0 ++ toBytesBE 8 (msg.length * 8)

/-- Split a padded message into its 64-byte chunks (`n` chunks). -/
def chunksGo : Nat → List Nat → List (List Nat)
  | 0, _ => []
  | n + 1, l => l.take 64 :: chunksGo n (l.drop 64)

/-- SHA-256 of a byte list, as its 32 digest bytes. -/
def sha256 (msg : List Nat) : List Nat :=
  let padded := sha256Pad msg
  let fin := (chunksGo (padded.length / 64) padded).foldl processChunk sha256H0
  toBytesBE 4 fin.w0 ++ toBytesBE 4 fin.w1 ++ toBytesBE 4 fin.w2 ++
    toBytesBE 4 fin.w3 ++ toBytesBE 4 fin.w4 ++ toBytesBE 4 fin.w5 ++
    toBytesBE 4 fin.w6 ++ toBytesBE 4 fin.w7

/-- Lowercase hexadecimal digit of a value below 16. -/
def hexDigit (n : Nat) : Char :=
  if n < 10 then Char.ofNat (48 + n) else Char.ofNat (87 + n)

/-- Lowercase-hex rendering of a byte list (Go `fmt.Sprintf("%x", …)`). -/
def bytesToHexLower (bs : List Nat) : String :=
  String.mk ((bs.map (fun b => [hexDigit (b / 16), hexDigit (b % 16)])).flatten)

/-- `config.Fingerprint` of `part_014`: a `sha256` hasher receives the
script bytes, then — when `os.Executable` resolves and its bytes can be
read — the bytes of the running binary; the digest is rendered in
lowercase hex.  `exeBytes` models the outcome of
`os.Executable`/`os.ReadFile` (`none` when either fails; the hasher then
holds the script bytes only).  Sequential `Write` calls hash the
concatenation of their inputs. -/
def Fingerprint (data : List Nat) (exeBytes : Option (List Nat)) : String :=
  match exeBytes with
  | some bin => bytesToHexLower (sha256 (data ++ bin))
  | none => bytesToHexLower (sha256 data)

/-- `config.CacheDir` of `part_014`: `<home>/cache/<fp truncated to 32
characters>` (truncated only when longer than 32; `filepath.Join` of a
clean `home` is plain concatenation with `/`). -/
def CacheDir (home fingerprint : String) : String :=
  let short := if fingerprint.data.length > 32 then
    String.mk (fingerprint.data.take 32) else fingerprint
  home ++ "/cache/" ++ short

/-! ## Boot — `TryMemoryJS` of package `boot` -/

/-- `boot.Result`. -/
structure BootResult where
  success : Bool
  output : String
  resumeContext : String
deriving DecidableEq, Repr

/-- Outcome of `Sandbox.Run` on memory.js: a result string, a
`ResumeError` with its context, or any other error. -/
inductive RunOutcome where
  | ok (result : String)
  | resume (ctx : String)
  | err (msg : String)
deriving DecidableEq, Repr

/-- The effects `TryMemoryJS` depends on: whether `os.Stat` finds
memory.js, the result of `os.ReadFile`, of `sandbox.New`, and of
`Sandbox.Run`. -/
structure BootEnv where
  memoryJSExists : Bool
  readMemoryJS : Except String String
  newSandbox : Except String Unit
  run : RunOutcome

/-- `boot.TryMemoryJS`: missing file, read failure, sandbox-creation
failure, success, resume, and runtime error, in the order of the Go
code.  The function is total: no memory.js failure is fatal. -/
def TryMemoryJS (env : BootEnv) : BootResult :=
  if !env.memoryJSExists then
    ⟨false, "", "no memory.js exists, first run"⟩
  else
    match env.readMemoryJS with
    | .error e => ⟨false, "", "failed to read memory.js: " ++ e⟩
    | .ok _ =>
      match env.newSandbox with
      | .error e => ⟨false, "", "failed to create sandbox: " ++ e⟩
      | .ok _ =>
        match env.run with
        | .ok r => ⟨true, r, ""⟩
        | .resume c => ⟨false, "", c⟩
        | .err m => ⟨false, "", "memory.js error: " ++ m⟩

/-! ## Agent loop — `internal/agent/agent.go` with `internal/provider` -/

/-- `provider.ContentBlock`: tagged union of text, tool_use and
tool_result blocks (`json.RawMessage` inputs are modelled as strings). -/
structure ContentBlock where
  ctype : String
  text : String
  toolUseID : String
  toolName : String
  input : String
  toolUseIDRef : String
  content : String
  isError : Bool
deriving DecidableEq, Repr

/-- `provider.NewTextBlock`. -/
def NewTextBlock (text : String) : ContentBlock :=
  ⟨"text", text, "", "", "", "", "", false⟩

/-- `provider.NewToolUseBlock`. -/
def NewToolUseBlock (id name input : String) : ContentBlock :=
  ⟨"tool_use", "", id, name, input, "", "", false⟩

/-- `provider.NewToolResultBlock`. -/
def NewToolResultBlock (toolUseID content : String) (isError : Bool) :
    ContentBlock :=
  ⟨"tool_result", "", "", "", "", toolUseID, content, isError⟩

/-- `provider.Message`. -/
structure Message where
  role : String
  content : List ContentBlock
deriving DecidableEq, Repr

/-- `provider.NewUserMessage`. -/
def NewUserMessage (blocks : List ContentBlock) : Message :=
  ⟨"user", blocks⟩

/-- `provider.NewAssistantMessage`. -/
def NewAssistantMessage (blocks : List ContentBlock) : Message :=
  ⟨"assistant", blocks⟩

/-- `provider.ChatResponse`. -/
structure ChatResponse where
  content : List ContentBlock
  stopReason : String
deriving DecidableEq, Repr

/-- Outcome of one `Registry.Execute` call as the agent loop sees it:
a result string, an ordinary error (reported back as an `isError`
tool_result), or a fatal error (context cancellation or an interrupted
prompt — the loop aborts). -/
inductive ToolOutcome where
  | ok (result : String)
  | err (msg : String)
  | fatal (msg : String)
deriving DecidableEq, Repr

/-- The environment of `Agent.Run`: the provider (`Chat`), the tool
registry (`Execute`, keyed by tool name and input), and the host
context (`cancelledAt n` models `ctx.Err() != nil` at the start of
turn `n`). -/
structure AgentEnv where
  chat : List Message → Except String ChatResponse
  exec : String → String → ToolOutcome
  cancelledAt : Nat → Bool

/-- The per-turn tool execution loop of `Agent.Run`: each tool_use is
executed in order; ordinary errors become `isError` tool_result blocks;
a fatal error aborts the loop, discarding collected results. -/
def execTools (exec : String → String → ToolOutcome) :
    List ContentBlock → Except String (List ContentBlock)
  | [] => .ok []
  | tu :: rest =>
    match exec tu.toolName tu.input with
    | .fatal m => .error m
    | .ok s =>
      (execTools exec rest).map
        (fun bs => NewToolResultBlock tu.toolUseID s false :: bs)
    | .err m =>
      (execTools exec rest).map
        (fun bs => NewToolResultBlock tu.toolUseID m true :: bs)

/-- Result of `Agent.Run`: `nil` or an error. -/
inductive RunResult where
  | ok
  | fail (msg : String)
deriving DecidableEq, Repr

/-- The iteration of `Agent.Run` (agent.go lines 398–472), with the
remaining iteration budget as fuel; returns the result, the number of
provider turns consumed and the final conversation.  Order per turn:
context check, `Provider.Chat`, collect tool_use blocks, terminate when
none, append the assistant message, execute every tool, append one user
message holding all tool_result blocks, then honor `end_turn`. -/
def runLoop (env : AgentEnv) (maxIterations : Nat) :
    Nat → Nat → List Message → RunResult × Nat × List Message
  | 0, turn, msgs =>
    (.fail ("agent loop exceeded maximum iterations (" ++
      toString maxIterations ++ ")"), turn, msgs)
  | rem + 1, turn, msgs =>
    if env.cancelledAt turn then (.fail "context cancelled", turn, msgs)
    else
      match env.chat msgs with
      | .error e => (.fail ("API call failed: " ++ e), turn + 1, msgs)
      | .ok resp =>
        if (resp.content.filter (fun b => b.ctype == "tool_use")).isEmpty then
          (.ok, turn + 1, msgs)
        else
          match execTools env.exec
              (resp.content.filter (fun b => b.ctype == "tool_use")) with
          | .error m =>
            (.fail m, turn + 1, msgs ++ [NewAssistantMessage resp.content])
          | .ok results =>
            if resp.stopReason == "end_turn" then
              (.ok, turn + 1, msgs ++ [NewAssistantMessage resp.content] ++
                [NewUserMessage results])
            else
              runLoop env maxIterations rem (turn + 1)
                (msgs ++ [NewAssistantMessage resp.content] ++
                  [NewUserMessage results])

/-- `Agent.Run` on an initial prompt (the resume-context appendix is
already folded into `prompt`). -/
def AgentRun (env : AgentEnv) (maxIterations : Nat) (prompt : String) :
    RunResult × Nat × List Message :=
  runLoop env maxIterations maxIterations 0
    [NewUserMessage [NewTextBlock prompt]]

/-! ## Sandbox path resolution — `internal/sandbox/sandbox.go`

The repository snapshot of `sandbox.go` predates the `WritablePaths`
config field that its own tests (`sandbox_test.go`:
`TestWritablePathsExactFileMatch`, `TestCannotWriteOutsideWritablePaths`,
`TestCanReadOutsideWritablePaths`) and callers (`internal/tools/script.go`,
`boot.TryMemoryJS`) use.  The missing revision of `resolvePath` is
modelled from §4.5 of the spec, whose pseudocode those tests
corroborate.  `path/filepath` helpers (`Clean`, `Join`, `Dir`, `Base`)
are implemented for slash-separated paths. -/

/-- Split a string at every `/`. -/
def splitSegsAux : List Char → List Char → List String
  | acc, [] => [String.mk acc.reverse]
  | acc, c :: cs =>
    if c = '/' then String.mk acc.reverse :: splitSegsAux [] cs
    else splitSegsAux (c :: acc) cs

/-- Split a path into its `/`-separated segments. -/
def splitSlash (s : String) : List String :=
  splitSegsAux [] s.data

/-- Segment normalisation of `filepath.Clean`: drop empty and `.`
segments, resolve `..` against the accumulator (`..` at the root of an
absolute path vanishes; leading `..`s of a relative path remain). -/
def cleanParts (abs : Bool) : List String → List String → List String
  | acc, [] => acc.reverse
  | acc, s :: rest =>
    if s = "" || s = "." then cleanParts abs acc rest
    else if s = ".." then
      match acc with
      | [] =>
        if abs then cleanParts abs [] rest
        else cleanParts abs [".."] rest
      | top :: acc' =>
        if top = ".." then cleanParts abs (".." :: (top :: acc')) rest
        else cleanParts abs acc' rest
    else cleanParts abs (s :: acc) rest

/-- `filepath.Clean` for slash paths. -/
def cleanPath (p : String) : String :=
  if p = "" then "."
  else
    let parts := cleanParts (hasPrefixStr p "/") [] (splitSlash p)
    if hasPrefixStr p "/" then
      if parts.isEmpty then "/" else "/" ++ String.intercalate "/" parts
    else
      if parts.isEmpty then "." else String.intercalate "/" parts

/-- `filepath.Join` of two elements: empty elements are skipped and the
result is cleaned (`Join("", "") = ""`). -/
def joinPath (a b : String) : String :=
  if a = "" && b = "" then ""
  else if a = "" then cleanPath b
  else if b = "" then cleanPath a
  else cleanPath (a ++ "/" ++ b)

/-- `filepath.Dir`: everything up to and including the last `/`,
cleaned (`.` when there is no `/`). -/
def dirPath (p : String) : String :=
  cleanPath (String.mk ((p.data.reverse.dropWhile (fun c => c ≠ '/')).reverse))

/-- `filepath.Base`: the last element of the path, after dropping
trailing slashes (`.` for the empty path, `/` when all slashes). -/
def baseName (p : String) : String :=
  if p = "" then "."
  else
    let l := p.data.reverse.dropWhile (fun c => c = '/')
    if l.isEmpty then "/"
    else String.mk (l.takeWhile (fun c => c ≠ '/')).reverse

/-- The path scopes of a sandbox: symlink-resolved read roots, writable
paths (exact directory or exact file), and the working directory for
relative paths. -/
structure SandboxPaths where
  allowedPaths : List String
  writablePaths : List String
  workDir : String

/-- Modelled from the spec: the authorization step of `resolvePath`
(§4.5).  Write and delete operations are authorized against
`writablePaths` only (exact match or containment in a writable
directory); read and list operations against `allowedPaths`; anything
else falls through to the `ApprovePath` callback, and with no callback
configured the access is denied. -/
def authorizePath (sb : SandboxPaths)
    (approve : Option (String → String → Bool)) (op userPath real : String) :
    Except String String :=
  if op == "write" || op == "delete" then
    if sb.writablePaths.any
        (fun w => real == w || hasPrefixStr real (w ++ "/")) then
      .ok real
    else
      askApproval
  else
    if sb.allowedPaths.any
        (fun a => real == a || hasPrefixStr real (a ++ "/")) then
      .ok real
    else
      askApproval
where
  /-- The approval fallback shared by both branches. -/
  askApproval : Except String String :=
    match approve with
    | some f =>
      if f op real then .ok real
      else .error ("access denied: path \"" ++ userPath ++
        "\" is outside the sandbox")
    | none =>
      .error ("access denied: path \"" ++ userPath ++
        "\" is outside the sandbox")

/-- Modelled from the spec: `resolvePath` of the sandbox revision with
`WritablePaths` (§4.5; missing from the snapshot's `sandbox.go`, which
its tests and callers postdate).  The user path is made absolute
against `workDir`, resolved through symlinks (`fsEval` models
`filepath.EvalSymlinks`: `some r` when the path exists and resolves to
`r`, `none` when it does not); for a path that does not yet exist the
parent is resolved instead and the base re-appended; when even the
parent fails to resolve the operation fails with `path not accessible`
before any containment check or approval.  The resolved path is then
authorized by `authorizePath`. -/
def resolvePath (fsEval : String → Option String) (sb : SandboxPaths)
    (approve : Option (String → String → Bool)) (op userPath : String) :
    Except String String :=
  let abs := if hasPrefixStr userPath "/" then cleanPath userPath
    else joinPath sb.workDir userPath
  match fsEval abs with
  | some real => authorizePath sb approve op userPath real
  | none =>
    match fsEval (dirPath abs) with
    | none => .error ("path not accessible: " ++ userPath)
    | some realParent =>
      authorizePath sb approve op userPath
        (joinPath realParent (baseName abs))

/-! ## Theorems -/

/-- Helper: full characterisation of the best-match fold.  The result is
either the untouched accumulator or `(some e, |e.path|)` for a matching
entry `e` of the list; its recorded length never decreases and bounds
the pattern length of every matching entry of the list. -/
theorem matchPath_fold_spec (t : String) :
    ∀ (l : List PathEntry) (acc : Option PathEntry × Nat),
      ((l.foldl (matchPathStep t) acc) = acc ∨
        ∃ e ∈ l, (l.foldl (matchPathStep t) acc) = (some e, e.path.data.length) ∧
          pathMatches e.path t = true) ∧
      acc.2 ≤ (l.foldl (matchPathStep t) acc).2 ∧
      (∀ e ∈ l, pathMatches e.path t = true →
        e.path.data.length ≤ (l.foldl (matchPathStep t) acc).2) := by
  intro l
  induction l with
  | nil =>
    intro acc
    refine ⟨Or.inl rfl, le_refl _, ?_⟩
    intro e he
    cases he
  | cons e rest ih =>
    intro acc
    simp only [List.foldl_cons]
    by_cases h : (pathMatches e.path t && decide (e.path.data.length > acc.2)) = true
    · have hstep : matchPathStep t acc e = (some e, e.path.data.length) := by
        unfold matchPathStep
        rw [if_pos h]
      rw [hstep]
      obtain ⟨hfst, hsnd, hbound⟩ := ih (some e, e.path.data.length)
      have hm : pathMatches e.path t = true := (Bool.and_eq_true _ _ |>.mp h).1
      have hgt : acc.2 < e.path.data.length := by
        have := (Bool.and_eq_true _ _ |>.mp h).2
        exact of_decide_eq_true this
      refine ⟨?_, ?_, ?_⟩
      · rcases hfst with hr | ⟨e', hmem, hr, hm'⟩
        · exact Or.inr ⟨e, List.mem_cons_self e rest, hr, hm⟩
        · exact Or.inr ⟨e', List.mem_cons_of_mem e hmem, hr, hm'⟩
      · exact le_trans (le_of_lt hgt) hsnd
      · intro e'' hmem hm''
        rcases List.mem_cons.mp hmem with rfl | hmem'
        · exact hsnd
        · exact hbound e'' hmem' hm''
    · have hstep : matchPathStep t acc e = acc := by
        unfold matchPathStep
        rw [if_neg]
        exact fun hc => h hc
      rw [hstep]
      obtain ⟨hfst, hsnd, hbound⟩ := ih acc
      refine ⟨?_, hsnd, ?_⟩
      · rcases hfst with hr | ⟨e', hmem, hr, hm'⟩
        · exact Or.inl hr
        · exact Or.inr ⟨e', List.mem_cons_of_mem e hmem, hr, hm'⟩
      intro e'' hmem hm''
      rcases List.mem_cons.mp hmem with rfl | hmem'
      · -- the head matched but was not selected: its length is ≤ acc.2
        have hng : ¬ (e''.path.data.length > acc.2) := by
          intro hgt
          apply h
          rw [hm'', decide_eq_true hgt]
          rfl
        exact le_trans (Nat.le_of_not_lt hng) hsnd
      · exact hbound e'' hmem' hm''

/-- Helper: when `MatchPath` returns an entry, that entry is a matching
member of the list and its pattern length is maximal among matching
entries. -/
theorem MatchPath_spec (p : PathPolicy) (path : String) (e : PathEntry)
    (h : p.MatchPath path = some e) :
    e ∈ p.entries ∧ pathMatches e.path path = true ∧
      ∀ e' ∈ p.entries, pathMatches e'.path path = true →
        e'.path.data.length ≤ e.path.data.length := by
  obtain ⟨hfst, _, hbound⟩ := matchPath_fold_spec path p.entries (none, 0)
  rw [PathPolicy.MatchPath] at h
  rcases hfst with hr | ⟨e', hmem, hr, hm⟩
  · rw [hr] at h
    cases h
  · rw [hr] at h
    cases h
    refine ⟨hmem, hm, ?_⟩
    intro e'' hmem'' hm''
    have := hbound e'' hmem'' hm''
    rw [hr] at this
    exact this

/-- Helper: the first entry of a list satisfying a predicate is found by
`List.find?` even when more specific entries follow. -/
theorem find?_first_match {α : Type} (f : α → Bool) :
    ∀ (pre post : List α) (e : α),
      (∀ x ∈ pre, f x = false) → f e = true →
      List.find? f (pre ++ e :: post) = some e := by
  intro pre
  induction pre with
  | nil =>
    intro post e _ he
    simp [List.find?, he]
  | cons x xs ih =>
    intro post e hpre he
    have hx : f x = false := hpre x (List.mem_cons_self x xs)
    simp only [List.cons_append, List.find?, hx]
    exact ih post e (fun y hy => hpre y (List.mem_cons_of_mem x hy)) he

/-- C2: for every operation, every pair of policies (thought and global)
and every path equal to `<thoughtDir>/policy.json` or having it as a
prefix, the `ApprovePath` cascade returns deny before the protected
scan, the session flag, any policy entry and the terminal prompt — in
particular no allow entry of either policy can make it return true, and
no prompt is ever shown. -/
theorem C2_policyJson_always_denied (a : ApproverState) (op path : String)
    (hdir : a.thoughtDir ≠ "")
    (hpath : path = a.thoughtDir ++ "/policy.json" ∨
      hasPrefixStr path (a.thoughtDir ++ "/policy.json") = true) :
    approvePathOutcome a op path = .denied ∧
      approvePathNoTTY a op path = false := by
  have hcond : (a.thoughtDir != "" &&
      (path == a.thoughtDir ++ "/policy.json" ||
        hasPrefixStr path (a.thoughtDir ++ "/policy.json"))) = true := by
    refine (Bool.and_eq_true _ _).mpr ⟨bne_iff_ne.mpr hdir, ?_⟩
    rcases hpath with h | h
    · exact (Bool.or_eq_true _ _).mpr (Or.inl (beq_iff_eq.mpr h))
    · exact (Bool.or_eq_true _ _).mpr (Or.inr h)
  constructor
  · unfold approvePathOutcome
    rw [if_pos hcond]
  · unfold approvePathNoTTY approvePathOutcome
    rw [if_pos hcond]
    rfl

/-- Witness for C2 at a concrete state and path. -/
theorem C2_policyJson_always_denied_witness :
    approvePathOutcome ⟨"/t", NewPolicy, NewPolicy, false⟩ "write"
        "/t/policy.json" = .denied ∧
      approvePathNoTTY ⟨"/t", NewPolicy, NewPolicy, false⟩ "write"
        "/t/policy.json" = false :=
  C2_policyJson_always_denied ⟨"/t", NewPolicy, NewPolicy, false⟩ "write"
    "/t/policy.json" (by decide) (Or.inl (by decide))

/-- C5 counterexample: the global protected list contains an entry
matching `/p` with mode `r` and approval deny, and the thought policy
contains an allow entry for `/p`, yet `ApprovePath read /p` returns
allow — because the protected scan stops at the *first* matching entry
with the mode, here the earlier protected allow.  The claim's universal
statement (any protected deny entry forces false) is therefore wrong. -/
theorem C5_counterexample :
    (⟨"/p", "r", .deny⟩ : PathEntry) ∈ c5State.globalPolicy.paths.Protected ∧
    pathMatches "/p" "/p" = true ∧
    hasMode "r" (opToModeChar "read") = true ∧
    c5State.thoughtPolicy.paths.entries = [⟨"/p", "r", .allow⟩] ∧
    approvePathOutcome c5State "read" "/p" = .allowed := by
  refine ⟨by decide, by decide, by decide, rfl, by decide⟩

/-- C5 (amended): whenever the scan of the global protected list — first
entry matching the pattern and carrying the requested mode character;
allow/deny terminal, prompt skipped — yields deny, `ApprovePath` returns
false, regardless of the session-wide allow flag and of every
thought-policy or non-protected global entry or default; the protected
scan is consulted before all of them (only the policy.json guard comes
earlier, and it can only deny). -/
theorem C5_amended_protected_deny_final (a : ApproverState) (op path : String)
    (h : scanProtected a.globalPolicy.paths.Protected path
      (opToModeChar op) = some false) :
    approvePathOutcome a op path = .denied := by
  unfold approvePathOutcome
  by_cases hg : (a.thoughtDir != "" &&
      (path == a.thoughtDir ++ "/policy.json" ||
        hasPrefixStr path (a.thoughtDir ++ "/policy.json"))) = true
  · rw [if_pos hg]
  · rw [if_neg hg, h]

/-- Witness for the amended C5: protected deny beats the session flag,
a thought allow entry and an allow default. -/
theorem C5_amended_witness :
    approvePathOutcome c5WitState "write" "/p/file" = .denied :=
  C5_amended_protected_deny_final c5WitState "write" "/p/file" (by decide)

/-- C6 counterexample: for a read of `/a/b/c`, the most-specific entry
whose pattern matches *and* whose mode contains `r` is `/a` (allow), so
the claim predicts an allow decision from the thought policy.  The code
instead selects the longest-prefix entry mode-blind — `/a/b`, whose mode
`w` lacks `r` — and the thought stage decides nothing, leaving the
cascade inconclusive (prompt; false without a TTY). -/
theorem C6_counterexample :
    pathMatches "/a" "/a/b/c" = true ∧
    hasMode "r" (opToModeChar "read") = true ∧
    pathMatches "/a/b" "/a/b/c" = true ∧
    hasMode "w" (opToModeChar "read") = false ∧
    c6State.thoughtPolicy.paths.MatchPath "/a/b/c"
      = some ⟨"/a/b", "w", .allow⟩ ∧
    approvePathOutcome c6State "read" "/a/b/c" = .wouldPrompt ∧
    approvePathNoTTY c6State "read" "/a/b/c" = false := by
  refine ⟨by decide, by decide, by decide, by decide, by decide, by decide,
    by decide⟩

/-- C6 (amended): the thought-policy stage selects the most-specific
(longest-prefix) entry whose pattern matches the path, *ignoring the
mode*; when that entry's mode contains the requested mode character its
allow or deny verdict is final (prompt falls through); when it lacks the
mode character the thought stage decides nothing even if a less-specific
matching entry carries the mode.  In particular, among entries
`[/a, /a/b]` both matching `/a/b/c` and both carrying the requested
mode, the decision comes from `/a/b`. -/
theorem C6_amended_longest_prefix_mode_blind :
    (∀ (p : PathPolicy) (path : String) (e : PathEntry),
        p.MatchPath path = some e →
        e ∈ p.entries ∧ pathMatches e.path path = true ∧
          ∀ e' ∈ p.entries, pathMatches e'.path path = true →
            e'.path.data.length ≤ e.path.data.length) ∧
    (∀ (a : ApproverState) (op path : String) (e : PathEntry),
        a.thoughtDir = "" →
        scanProtected a.globalPolicy.paths.Protected path
          (opToModeChar op) = none →
        a.sessionAllowFS = false →
        a.thoughtPolicy.paths.MatchPath path = some e →
        hasMode e.mode (opToModeChar op) = true →
        (e.approval = .allow → approvePathOutcome a op path = .allowed) ∧
          (e.approval = .deny → approvePathOutcome a op path = .denied)) ∧
    c6bThought.paths.MatchPath "/a/b/c" = some ⟨"/a/b", "r", .deny⟩ ∧
    approvePathOutcome ⟨"", NewPolicy, c6bThought, false⟩ "read" "/a/b/c"
      = .denied := by
  refine ⟨fun p path e h => MatchPath_spec p path e h, ?_, by decide,
    by decide⟩
  intro a op path e hdir hprot hsess hmatch hmode
  have hempty : ("" != "") = false := by decide
  have hg : ¬ ((a.thoughtDir != "" &&
      (path == a.thoughtDir ++ "/policy.json" ||
        hasPrefixStr path (a.thoughtDir ++ "/policy.json"))) = true) := by
    rw [hdir, hempty, Bool.false_and]
    exact Bool.false_ne_true
  constructor
  · intro hallow
    unfold approvePathOutcome
    rw [if_neg hg, hprot, hsess, hmatch]
    simp [entryVerdict, hmode, hallow, approvalVerdict]
  · intro hdeny
    unfold approvePathOutcome
    rw [if_neg hg, hprot, hsess, hmatch]
    simp [entryVerdict, hmode, hdeny, approvalVerdict]

/-- Witness for the amended C6 at concrete inputs. -/
theorem C6_amended_witness :
    (⟨"/a/b", "r", .deny⟩ : PathEntry) ∈ c6bThought.paths.entries ∧
    approvePathOutcome ⟨"", NewPolicy, c6bThought, false⟩ "read" "/a/b/c"
      = .denied :=
  ⟨(C6_amended_longest_prefix_mode_blind.1 c6bThought.paths "/a/b/c"
      ⟨"/a/b", "r", .deny⟩ (by decide)).1,
   (C6_amended_longest_prefix_mode_blind.2.1
      ⟨"", NewPolicy, c6bThought, false⟩ "read" "/a/b/c"
      ⟨"/a/b", "r", .deny⟩ rfl (by decide) rfl (by decide) (by decide)).2 rfl⟩

/-- C10: `MatchEnv` and `MatchHost` return the first entry in list order
whose pattern matches — an earlier entry always decides, regardless of
the specificity of later entries — unlike `MatchPath`, which selects the
longest matching prefix (concrete contrast in the last conjunct). -/
theorem C10_env_host_first_match :
    (∀ (p : EnvPolicy) (name : String) (pre post : List EnvEntry)
        (e : EnvEntry),
        p.entries = pre ++ e :: post →
        (∀ x ∈ pre, envMatches x.name name = false) →
        envMatches e.name name = true →
        p.MatchEnv name = some e) ∧
    (∀ (p : HostPolicy) (host : String) (pre post : List HostEntry)
        (e : HostEntry),
        p.entries = pre ++ e :: post →
        (∀ x ∈ pre, hostMatches x.host host = false) →
        hostMatches e.host host = true →
        p.MatchHost host = some e) ∧
    EnvPolicy.MatchEnv ⟨.prompt, [⟨"AWS_*", .allow⟩, ⟨"AWS_SECRET", .deny⟩]⟩
      "AWS_SECRET" = some ⟨"AWS_*", .allow⟩ ∧
    HostPolicy.MatchHost ⟨.prompt, [⟨"*.x.com", .allow⟩, ⟨"a.x.com", .deny⟩]⟩
      "a.x.com" = some ⟨"*.x.com", .allow⟩ ∧
    PathPolicy.MatchPath ⟨.prompt, [⟨"/a", "r", .allow⟩, ⟨"/a/b", "r", .deny⟩], []⟩
      "/a/b/c" = some ⟨"/a/b", "r", .deny⟩ := by
  refine ⟨?_, ?_, by decide, by decide, by decide⟩
  · intro p name pre post e hent hpre he
    unfold EnvPolicy.MatchEnv
    rw [hent]
    exact find?_first_match _ pre post e hpre he
  · intro p host pre post e hent hpre he
    unfold HostPolicy.MatchHost
    rw [hent]
    exact find?_first_match _ pre post e hpre he

/-- Witness for C10: first-match applied at concrete env and host lists
where a more specific entry follows a matching earlier one. -/
theorem C10_env_host_first_match_witness :
    EnvPolicy.MatchEnv ⟨.prompt, [⟨"A_*", .deny⟩, ⟨"A_B", .allow⟩]⟩ "A_B"
      = some ⟨"A_*", .deny⟩ ∧
    HostPolicy.MatchHost ⟨.prompt, [⟨"*.d.com", .deny⟩, ⟨"x.d.com", .allow⟩]⟩
      "x.d.com" = some ⟨"*.d.com", .deny⟩ :=
  ⟨C10_env_host_first_match.1 ⟨.prompt, [⟨"A_*", .deny⟩, ⟨"A_B", .allow⟩]⟩
      "A_B" [] [⟨"A_B", .allow⟩] ⟨"A_*", .deny⟩ rfl (by intro x hx; cases hx)
      (by decide),
   C10_env_host_first_match.2.1
      ⟨.prompt, [⟨"*.d.com", .deny⟩, ⟨"x.d.com", .allow⟩]⟩ "x.d.com" []
      [⟨"x.d.com", .allow⟩] ⟨"*.d.com", .deny⟩ rfl (by intro x hx; cases hx)
      (by decide)⟩

/-- Helper: every address in the claimed ranges is classified private by
`isPrivateIP`. -/
theorem claimedPrivateRange_isPrivate (ip : IP)
    (h : claimedPrivateRange ip) : isPrivateIP ip = true := by
  rcases h with ⟨b1, b2, b3, b4, rfl, hcase⟩ | rfl | ⟨b1, rest, rfl, hlen, hll⟩
  · have h4 : toIPv4 [b1, b2, b3, b4] = some [b1, b2, b3, b4] := by
      simp [toIPv4]
    unfold isPrivateIP isLoopback isLinkLocalUnicast isLinkLocalMulticast
    rw [h4]
    simp only [ipByte, List.getD]
    rcases hcase with rfl | ⟨rfl, rfl⟩ | rfl | ⟨rfl, hlo, hhi⟩ | ⟨rfl, rfl⟩ <;>
      simp_all
  · decide
  · have h4 : toIPv4 (0xfe :: b1 :: rest) = none := by
      unfold toIPv4
      have hl : (((0xfe :: b1 :: rest).length == 4)) = false := by
        simp [hlen]
      have ht : (((0xfe :: b1 :: rest).take 10 == List.replicate 10 0)) = false := by
        simp [List.replicate]
      rw [hl, ht]
      simp
    have hmid : isLinkLocalUnicast (0xfe :: b1 :: rest) = true := by
      unfold isLinkLocalUnicast
      rw [h4]
      have hlb : (((0xfe :: b1 :: rest).length == 16)) = true := by
        simp [hlen]
      simp [ipByte, hlb, hll, hlen]
    simp [isPrivateIP, hmid]

/-- C4: when the URL hostname of a `net.fetch` call is a literal IP in
one of the claimed private ranges, the call throws a JS error before the
`approveNet` callback is consulted (the outcome is the same for every
callback, including none at all); likewise when the hostname is not a
literal IP but DNS resolution yields a private address. -/
theorem C4_ssrf_guard_blocks_before_approval :
    (∀ (host : String) (ip : IP) (lookup : Option (List IP))
        (approve : Option (String → Bool)),
      claimedPrivateRange ip →
        netFetchAuthorize host (some ip) lookup approve =
          .jsError ("net.fetch: access to private IP " ++ host ++ " denied") ∧
        ∀ approve' : Option (String → Bool),
          netFetchAuthorize host (some ip) lookup approve =
            netFetchAuthorize host (some ip) lookup approve') ∧
    (∀ (host : String) (ips : List IP) (ip : IP)
        (approve : Option (String → Bool)),
      ip ∈ ips → claimedPrivateRange ip →
        netFetchAuthorize host none (some ips) approve =
          .jsError ("net.fetch: " ++ host ++
            " resolves to private IP, access denied") ∧
        ∀ approve' : Option (String → Bool),
          netFetchAuthorize host none (some ips) approve =
            netFetchAuthorize host none (some ips) approve') := by
  constructor
  · intro host ip lookup approve h
    have hp : isPrivateIP ip = true := claimedPrivateRange_isPrivate ip h
    constructor
    · simp [netFetchAuthorize, hp]
    · intro approve'
      simp [netFetchAuthorize, hp]
  · intro host ips ip approve hmem h
    have hp : isPrivateIP ip = true := claimedPrivateRange_isPrivate ip h
    have hany : ips.any isPrivateIP = true :=
      List.any_eq_true.mpr ⟨ip, hmem, hp⟩
    constructor
    · simp [netFetchAuthorize, hany]
    · intro approve'
      simp [netFetchAuthorize, hany]

/-- Witness for C4: the IMDS-style literal `169.254.169.254` with an
always-allowing callback is still blocked, and a host resolving to
`10.0.0.1` is blocked before its callback as well. -/
theorem C4_ssrf_guard_witness :
    netFetchAuthorize "169.254.169.254" (some [169, 254, 169, 254]) none
        (some (fun _ => true)) =
      .jsError "net.fetch: access to private IP 169.254.169.254 denied" ∧
    netFetchAuthorize "internal.example" none (some [[10, 0, 0, 1]])
        (some (fun _ => true)) =
      .jsError
        "net.fetch: internal.example resolves to private IP, access denied" :=
  ⟨(C4_ssrf_guard_blocks_before_approval.1 "169.254.169.254"
      [169, 254, 169, 254] none (some (fun _ => true))
      (Or.inl ⟨169, 254, 169, 254, rfl, Or.inr (Or.inl ⟨rfl, rfl⟩)⟩)).1,
   (C4_ssrf_guard_blocks_before_approval.2 "internal.example" [[10, 0, 0, 1]]
      [10, 0, 0, 1] (some (fun _ => true)) (List.mem_singleton.mpr rfl)
      (Or.inl ⟨10, 0, 0, 1, rfl, Or.inr (Or.inr (Or.inl rfl))⟩)).1⟩

/-- Helper: `toBytesBE` produces exactly `k` bytes. -/
theorem toBytesBE_length (k n : Nat) : (toBytesBE k n).length = k := by
  simp [toBytesBE]

/-- Helper: `toBytesBE` bytes are below 256. -/
theorem toBytesBE_lt (k n : Nat) : ∀ b ∈ toBytesBE k n, b < 256 := by
  intro b hb
  simp only [toBytesBE, List.mem_map] at hb
  obtain ⟨i, _, rfl⟩ := hb
  exact Nat.mod_lt _ (by norm_num)

/-- Helper: a SHA-256 digest has 32 bytes. -/
theorem sha256_length (msg : List Nat) : (sha256 msg).length = 32 := by
  unfold sha256
  simp [toBytesBE_length]

/-- Helper: SHA-256 digest bytes are below 256. -/
theorem sha256_bytes_lt (msg : List Nat) : ∀ b ∈ sha256 msg, b < 256 := by
  intro b hb
  unfold sha256 at hb
  simp only [List.mem_append] at hb
  rcases hb with ((((((h | h) | h) | h) | h) | h) | h) | h <;>
    exact toBytesBE_lt _ _ b h

/-- Helper: `hexDigit` of a value below 16 is a lowercase hex digit. -/
theorem hexDigit_mem (n : Nat) (h : n < 16) :
    hexDigit n ∈ "0123456789abcdef".data := by
  interval_cases n <;> decide

/-- Helper: the hex rendering has two characters per byte. -/
theorem bytesToHexLower_length (bs : List Nat) :
    (bytesToHexLower bs).data.length = 2 * bs.length := by
  show ((bs.map (fun b => [hexDigit (b / 16), hexDigit (b % 16)])).flatten).length
    = 2 * bs.length
  induction bs with
  | nil => rfl
  | cons b rest ih =>
    simp only [List.map_cons, List.flatten_cons, List.length_append,
      List.length_cons, List.length_nil, ih]
    omega

/-- Helper: the hex rendering of bytes below 256 uses only lowercase hex
digits. -/
theorem bytesToHexLower_chars (bs : List Nat) (h : ∀ b ∈ bs, b < 256) :
    ∀ c ∈ (bytesToHexLower bs).data, c ∈ "0123456789abcdef".data := by
  intro c hc
  have hc' : c ∈ (bs.map
      (fun b => [hexDigit (b / 16), hexDigit (b % 16)])).flatten := hc
  rw [List.mem_flatten] at hc'
  obtain ⟨l, hl, hcl⟩ := hc'
  rw [List.mem_map] at hl
  obtain ⟨b, hb, rfl⟩ := hl
  have hblt : b < 256 := h b hb
  rcases List.mem_cons.mp hcl with rfl | hcl'
  · exact hexDigit_mem _ (Nat.div_lt_of_lt_mul (by omega))
  · rcases List.mem_singleton.mp hcl' with rfl
    exact hexDigit_mem _ (Nat.mod_lt _ (by norm_num))

/-- C3: the fingerprint of script bytes `s` with a readable host binary
`bin` is the lowercase-hex SHA-256 of `s ++ bin` (64 lowercase hex
characters); with the same script, two different binaries produce two
different hash inputs (hence different fingerprints up to SHA-256
collisions); and the cache directory of a 64-character fingerprint is
`<home>/cache/<first 32 characters>`. -/
theorem C3_fingerprint_sha256_and_cachedir :
    (∀ (s bin : List Nat),
      Fingerprint s (some bin) = bytesToHexLower (sha256 (s ++ bin))) ∧
    (∀ (s bin : List Nat),
      (Fingerprint s (some bin)).data.length = 64 ∧
        ∀ c ∈ (Fingerprint s (some bin)).data,
          c ∈ "0123456789abcdef".data) ∧
    (∀ (s b1 b2 : List Nat), b1 ≠ b2 → s ++ b1 ≠ s ++ b2) ∧
    (∀ (home fp : String), fp.data.length = 64 →
      CacheDir home fp = home ++ "/cache/" ++ String.mk (fp.data.take 32)) := by
  refine ⟨fun s bin => rfl, ?_, ?_, ?_⟩
  · intro s bin
    constructor
    · show (bytesToHexLower (sha256 (s ++ bin))).data.length = 64
      rw [bytesToHexLower_length, sha256_length]
    · intro c hc
      exact bytesToHexLower_chars _ (sha256_bytes_lt _) c hc
  · intro s b1 b2 hne hc
    exact hne (List.append_cancel_left hc)
  · intro home fp h
    unfold CacheDir
    rw [if_pos (by rw [h]; norm_num)]

/-- Witness for C3 at concrete byte lists and a concrete 64-character
fingerprint. -/
theorem C3_fingerprint_witness :
    (([0] : List Nat) ++ [1] ≠ [0] ++ [2]) ∧
    CacheDir "/h" (String.mk (List.replicate 64 'a')) =
      "/h" ++ "/cache/" ++
        String.mk ((String.mk (List.replicate 64 'a')).data.take 32) :=
  ⟨C3_fingerprint_sha256_and_cachedir.2.2.1 [0] [1] [2] (by decide),
   C3_fingerprint_sha256_and_cachedir.2.2.2 "/h"
     (String.mk (List.replicate 64 'a')) (by simp)⟩

/-- C7 counterexample: when memory.js exists but reading it fails (for
example an unreadable file), `TryMemoryJS` returns the resume context
`failed to read memory.js: <err>` — a shape outside the three the claim
allows: it is not the first-run message, not a success, and not of the
`memory.js error: <msg>` shape the claim requires for errors other than
a resume exception. -/
theorem C7_counterexample :
    TryMemoryJS ⟨true, .error "permission denied", .ok (), .ok ""⟩ =
      ⟨false, "", "failed to read memory.js: permission denied"⟩ ∧
    hasPrefixStr "failed to read memory.js: permission denied"
      "memory.js error: " = false ∧
    "failed to read memory.js: permission denied" ≠
      "no memory.js exists, first run" := by
  refine ⟨rfl, by decide, by decide⟩

/-- C7 (amended): `TryMemoryJS` classifies every outcome into five
shapes — missing file → `{false, "", "no memory.js exists, first
run"}`; unreadable file → `{false, "", "failed to read memory.js:
<err>"}`; sandbox-creation failure → `{false, "", "failed to create
sandbox: <err>"}`; successful run → `{true, output, ""}`; resume
exception → `{false, "", context}`; any other run error → `{false, "",
"memory.js error: <msg>"}` — and, being a total function into
`BootResult`, no failure of memory.js is fatal to the invocation. -/
theorem C7_amended_boot_classification (env : BootEnv) :
    (env.memoryJSExists = false →
      TryMemoryJS env = ⟨false, "", "no memory.js exists, first run"⟩) ∧
    (∀ e, env.memoryJSExists = true → env.readMemoryJS = .error e →
      TryMemoryJS env = ⟨false, "", "failed to read memory.js: " ++ e⟩) ∧
    (∀ code e, env.memoryJSExists = true → env.readMemoryJS = .ok code →
      env.newSandbox = .error e →
      TryMemoryJS env = ⟨false, "", "failed to create sandbox: " ++ e⟩) ∧
    (∀ code r, env.memoryJSExists = true → env.readMemoryJS = .ok code →
      env.newSandbox = .ok () → env.run = .ok r →
      TryMemoryJS env = ⟨true, r, ""⟩) ∧
    (∀ code c, env.memoryJSExists = true → env.readMemoryJS = .ok code →
      env.newSandbox = .ok () → env.run = .resume c →
      TryMemoryJS env = ⟨false, "", c⟩) ∧
    (∀ code m, env.memoryJSExists = true → env.readMemoryJS = .ok code →
      env.newSandbox = .ok () → env.run = .err m →
      TryMemoryJS env = ⟨false, "", "memory.js error: " ++ m⟩) := by
  refine ⟨?_, ?_, ?_, ?_, ?_, ?_⟩
  · intro h
    simp [TryMemoryJS, h]
  · intro e h hr
    simp [TryMemoryJS, h, hr]
  · intro code e h hr hn
    simp [TryMemoryJS, h, hr, hn]
  · intro code r h hr hn hrun
    simp [TryMemoryJS, h, hr, hn, hrun]
  · intro code c h hr hn hrun
    simp [TryMemoryJS, h, hr, hn, hrun]
  · intro code m h hr hn hrun
    simp [TryMemoryJS, h, hr, hn, hrun]

/-- Witness for the amended C7: the first-run shape and the runtime
error shape at concrete environments. -/
theorem C7_amended_boot_classification_witness :
    TryMemoryJS ⟨false, .ok "", .ok (), .ok ""⟩ =
      ⟨false, "", "no memory.js exists, first run"⟩ ∧
    TryMemoryJS ⟨true, .ok "code", .ok (), .err "boom"⟩ =
      ⟨false, "", "memory.js error: " ++ "boom"⟩ :=
  ⟨(C7_amended_boot_classification ⟨false, .ok "", .ok (), .ok ""⟩).1 rfl,
   (C7_amended_boot_classification ⟨true, .ok "code", .ok (), .err "boom"⟩
     ).2.2.2.2.2 "code" "boom" rfl rfl rfl rfl⟩

/-- Helper: when no tool execution is fatal, `execTools` succeeds. -/
theorem execTools_no_fatal (exec : String → String → ToolOutcome)
    (hf : ∀ n i m, exec n i ≠ .fatal m) :
    ∀ l, ∃ bs, execTools exec l = .ok bs := by
  intro l
  induction l with
  | nil => exact ⟨[], rfl⟩
  | cons tu rest ih =>
    obtain ⟨bs, hbs⟩ := ih
    cases hx : exec tu.toolName tu.input with
    | fatal m => exact absurd hx (hf _ _ m)
    | ok s =>
      exact ⟨NewToolResultBlock tu.toolUseID s false :: bs,
        by simp [execTools, hx, hbs, Except.map]⟩
    | err m =>
      exact ⟨NewToolResultBlock tu.toolUseID m true :: bs,
        by simp [execTools, hx, hbs, Except.map]⟩

/-- Helper: a successful `execTools` yields one `tool_result` block per
`tool_use` block, in order, referencing the matching `toolUseID`. -/
theorem execTools_shape (exec : String → String → ToolOutcome) :
    ∀ (l : List ContentBlock) (bs : List ContentBlock),
      execTools exec l = .ok bs →
      bs.length = l.length ∧ ∀ p ∈ bs.zip l,
        p.1.ctype = "tool_result" ∧ p.1.toolUseIDRef = p.2.toolUseID := by
  intro l
  induction l with
  | nil =>
    intro bs h
    simp only [execTools] at h
    cases h
    exact ⟨rfl, by intro p hp; cases hp⟩
  | cons tu rest ih =>
    intro bs h
    cases hx : exec tu.toolName tu.input with
    | fatal m =>
      rw [execTools, hx] at h
      cases h
    | ok s =>
      rw [execTools, hx] at h
      cases her : execTools exec rest with
      | error e =>
        rw [her] at h
        simp [Except.map] at h
      | ok bs' =>
        rw [her] at h
        simp only [Except.map] at h
        cases h
        obtain ⟨hlen, hzip⟩ := ih bs' her
        refine ⟨by simp [hlen], ?_⟩
        intro p hp
        rcases List.mem_cons.mp hp with rfl | hp'
        · exact ⟨rfl, rfl⟩
        · exact hzip p hp'
    | err m =>
      rw [execTools, hx] at h
      cases her : execTools exec rest with
      | error e =>
        rw [her] at h
        simp [Except.map] at h
      | ok bs' =>
        rw [her] at h
        simp only [Except.map] at h
        cases h
        obtain ⟨hlen, hzip⟩ := ih bs' her
        refine ⟨by simp [hlen], ?_⟩
        intro p hp
        rcases List.mem_cons.mp hp with rfl | hp'
        · exact ⟨rfl, rfl⟩
        · exact hzip p hp'

/-- Helper: the loop consumes at most its remaining iteration budget in
provider turns. -/
theorem runLoop_turn_bound (env : AgentEnv) (maxIterations : Nat) :
    ∀ (rem turn : Nat) (msgs : List Message),
      (runLoop env maxIterations rem turn msgs).2.1 ≤ turn + rem := by
  intro rem
  induction rem with
  | zero =>
    intro turn msgs
    simp [runLoop]
  | succ n ih =>
    intro turn msgs
    have h0 : turn ≤ turn + (n + 1) := by omega
    have h1 : turn + 1 ≤ turn + (n + 1) := by omega
    unfold runLoop
    split
    · exact h0
    · split
      · exact h1
      · split
        · exact h1
        · split
          · exact h1
          · split
            · exact h1
            · exact le_trans (ih (turn + 1) _) (by omega)

/-- Helper: when every reply carries a tool_use and never stops with
`end_turn`, no tool call is fatal and the context is never cancelled,
the loop exhausts its budget and fails with the iteration-overflow
error. -/
theorem runLoop_overflow (env : AgentEnv) (maxIterations : Nat)
    (hchat : ∀ msgs, ∃ resp, env.chat msgs = .ok resp ∧
      (resp.content.filter (fun b => b.ctype == "tool_use")).isEmpty = false ∧
      (resp.stopReason == "end_turn") = false)
    (hf : ∀ n i m, env.exec n i ≠ .fatal m)
    (hcan : ∀ n, env.cancelledAt n = false) :
    ∀ (rem turn : Nat) (msgs : List Message),
      (runLoop env maxIterations rem turn msgs).1 =
        .fail ("agent loop exceeded maximum iterations (" ++
          toString maxIterations ++ ")") := by
  intro rem
  induction rem with
  | zero =>
    intro turn msgs
    rfl
  | succ n ih =>
    intro turn msgs
    obtain ⟨resp, hch, hemp, hstop⟩ := hchat msgs
    obtain ⟨results, hex⟩ := execTools_no_fatal env.exec hf
      (resp.content.filter (fun b => b.ctype == "tool_use"))
    unfold runLoop
    simp only [hcan turn, hch, hemp, hex, hstop, Bool.false_eq_true,
      if_false]
    exact ih (turn + 1) _

/-- C8: the agent loop consumes at most `maxIterations` provider turns;
when a run never terminates on its own the result is the
iteration-overflow error; a reply without tool_use blocks terminates
the turn successfully with no change to the conversation; and a reply
with tool_use blocks and `stop_reason == end_turn` first executes every
tool_use — appending the assistant message and one user message holding
a tool_result block per tool_use, ids matching in order — and then
terminates successfully. -/
theorem C8_agent_loop_termination :
    (∀ (env : AgentEnv) (maxIterations : Nat) (prompt : String),
      (AgentRun env maxIterations prompt).2.1 ≤ maxIterations) ∧
    (∀ (env : AgentEnv) (maxIterations : Nat) (prompt : String),
      (∀ msgs, ∃ resp, env.chat msgs = .ok resp ∧
        (resp.content.filter (fun b => b.ctype == "tool_use")).isEmpty
          = false ∧
        (resp.stopReason == "end_turn") = false) →
      (∀ n i m, env.exec n i ≠ .fatal m) →
      (∀ n, env.cancelledAt n = false) →
      (AgentRun env maxIterations prompt).1 =
        .fail ("agent loop exceeded maximum iterations (" ++
          toString maxIterations ++ ")")) ∧
    (∀ (env : AgentEnv) (maxIterations rem turn : Nat)
        (msgs : List Message) (resp : ChatResponse),
      env.cancelledAt turn = false →
      env.chat msgs = .ok resp →
      (resp.content.filter (fun b => b.ctype == "tool_use")).isEmpty
        = true →
      runLoop env maxIterations (rem + 1) turn msgs = (.ok, turn + 1, msgs)) ∧
    (∀ (env : AgentEnv) (maxIterations rem turn : Nat)
        (msgs : List Message) (resp : ChatResponse)
        (results : List ContentBlock),
      env.cancelledAt turn = false →
      env.chat msgs = .ok resp →
      (resp.content.filter (fun b => b.ctype == "tool_use")).isEmpty
        = false →
      execTools env.exec
        (resp.content.filter (fun b => b.ctype == "tool_use")) =
          .ok results →
      (resp.stopReason == "end_turn") = true →
      runLoop env maxIterations (rem + 1) turn msgs =
        (.ok, turn + 1, msgs ++ [NewAssistantMessage resp.content] ++
          [NewUserMessage results]) ∧
      results.length =
        (resp.content.filter (fun b => b.ctype == "tool_use")).length ∧
      ∀ p ∈ results.zip
          (resp.content.filter (fun b => b.ctype == "tool_use")),
        p.1.ctype = "tool_result" ∧ p.1.toolUseIDRef = p.2.toolUseID) := by
  refine ⟨?_, ?_, ?_, ?_⟩
  · intro env maxIterations prompt
    have := runLoop_turn_bound env maxIterations maxIterations 0
      [NewUserMessage [NewTextBlock prompt]]
    simpa [AgentRun] using this
  · intro env maxIterations prompt hchat hf hcan
    exact runLoop_overflow env maxIterations hchat hf hcan maxIterations 0 _
  · intro env maxIterations rem turn msgs resp hcan hch hemp
    unfold runLoop
    simp [hcan, hch, hemp]
  · intro env maxIterations rem turn msgs resp results hcan hch hemp hex hstop
    obtain ⟨hlen, hzip⟩ := execTools_shape env.exec _ results hex
    refine ⟨?_, hlen, hzip⟩
    unfold runLoop
    simp [hcan, hch, hemp, hex, hstop]

/-- Witness for C8: a concrete environment whose single reply has one
tool_use block and `end_turn`, and a concrete overflow environment. -/
theorem C8_agent_loop_termination_witness :
    (AgentRun
      ⟨fun _ => .ok ⟨[NewToolUseBlock "t1" "write_stdout" "x"], "end_turn"⟩,
        fun _ _ => .ok "done", fun _ => false⟩ 3 "p").2.1 ≤ 3 ∧
    runLoop
      ⟨fun _ => .ok ⟨[NewToolUseBlock "t1" "write_stdout" "x"], "end_turn"⟩,
        fun _ _ => .ok "done", fun _ => false⟩ 3 3 0
      [NewUserMessage [NewTextBlock "p"]] =
      (.ok, 1, [NewUserMessage [NewTextBlock "p"]] ++
        [NewAssistantMessage [NewToolUseBlock "t1" "write_stdout" "x"]] ++
        [NewUserMessage [NewToolResultBlock "t1" "done" false]]) ∧
    (AgentRun
      ⟨fun _ => .ok ⟨[NewToolUseBlock "t1" "run_script" "y"], "tool_use"⟩,
        fun _ _ => .ok "r", fun _ => false⟩ 2 "p").1 =
      .fail ("agent loop exceeded maximum iterations (" ++ toString 2 ++ ")") :=
  ⟨C8_agent_loop_termination.1
    ⟨fun _ => .ok ⟨[NewToolUseBlock "t1" "write_stdout" "x"], "end_turn"⟩,
      fun _ _ => .ok "done", fun _ => false⟩ 3 "p",
   (C8_agent_loop_termination.2.2.2
    ⟨fun _ => .ok ⟨[NewToolUseBlock "t1" "write_stdout" "x"], "end_turn"⟩,
      fun _ _ => .ok "done", fun _ => false⟩ 3 2 0
    [NewUserMessage [NewTextBlock "p"]]
    ⟨[NewToolUseBlock "t1" "write_stdout" "x"], "end_turn"⟩
    [NewToolResultBlock "t1" "done" false] rfl rfl (by decide) rfl
    rfl).1,
   C8_agent_loop_termination.2.1
    ⟨fun _ => .ok ⟨[NewToolUseBlock "t1" "run_script" "y"], "tool_use"⟩,
      fun _ _ => .ok "r", fun _ => false⟩ 2 "p"
    (fun _ => ⟨⟨[NewToolUseBlock "t1" "run_script" "y"], "tool_use"⟩,
      rfl, by decide, by decide⟩)
    (fun _ _ m h => by cases h) (fun _ => rfl)⟩

/-- Helper: a successful write/delete authorization with no approval
callback configured names a resolved path that matches the writable
list (exactly, or inside a writable directory). -/
theorem authorizePath_ok_writable (sb : SandboxPaths) (op up real r : String)
    (hop : (op == "write" || op == "delete") = true)
    (h : authorizePath sb none op up real = .ok r) :
    r = real ∧ ∃ w ∈ sb.writablePaths,
      (real == w || hasPrefixStr real (w ++ "/")) = true := by
  unfold authorizePath at h
  rw [if_pos hop] at h
  by_cases hany : (sb.writablePaths.any
      (fun w => real == w || hasPrefixStr real (w ++ "/"))) = true
  · rw [if_pos hany] at h
    cases h
    exact ⟨rfl, List.any_eq_true.mp hany⟩
  · rw [if_neg hany] at h
    unfold authorizePath.askApproval at h
    cases h

/-- C1 (spec-modelled): for a sandbox with
`writablePaths = [X/lib, X/memory.js]`, a write to `X/memory.js`
resolving to itself succeeds; a write to any path inside `X/lib`
succeeds; a write to any other path — even inside the allowed read
root `X`, e.g. `X/policy.json` — fails with an access-denied error when
no approval callback is configured; and in general every successful
write or delete with no callback matches the writable list (exact file
or directory containment), never merely the read-allowed list. -/
theorem C1_writable_path_exactness :
    (∀ (X wd : String) (allowed : List String)
        (fsEval : String → Option String)
        (approve : Option (String → String → Bool)),
      hasPrefixStr (X ++ "/memory.js") "/" = true →
      cleanPath (X ++ "/memory.js") = X ++ "/memory.js" →
      fsEval (X ++ "/memory.js") = some (X ++ "/memory.js") →
      resolvePath fsEval ⟨allowed, [X ++ "/lib", X ++ "/memory.js"], wd⟩
          approve "write" (X ++ "/memory.js") =
        .ok (X ++ "/memory.js")) ∧
    (∀ (X wd p : String) (allowed : List String)
        (fsEval : String → Option String)
        (approve : Option (String → String → Bool)),
      hasPrefixStr p "/" = true →
      cleanPath p = p →
      hasPrefixStr p (X ++ "/lib/") = true →
      fsEval p = some p →
      resolvePath fsEval ⟨allowed, [X ++ "/lib", X ++ "/memory.js"], wd⟩
          approve "write" p = .ok p) ∧
    (∀ (X wd p : String) (allowed : List String)
        (fsEval : String → Option String),
      hasPrefixStr p "/" = true →
      cleanPath p = p →
      fsEval p = some p →
      p ≠ X ++ "/lib" →
      hasPrefixStr p (X ++ "/lib/") = false →
      p ≠ X ++ "/memory.js" →
      hasPrefixStr p (X ++ "/memory.js/") = false →
      resolvePath fsEval ⟨allowed, [X ++ "/lib", X ++ "/memory.js"], wd⟩
          none "write" p =
        .error ("access denied: path \"" ++ p ++
          "\" is outside the sandbox")) ∧
    (∀ (fsEval : String → Option String) (sb : SandboxPaths)
        (op p real : String),
      (op = "write" ∨ op = "delete") →
      resolvePath fsEval sb none op p = .ok real →
      ∃ w ∈ sb.writablePaths,
        (real == w || hasPrefixStr real (w ++ "/")) = true) := by
  refine ⟨?_, ?_, ?_, ?_⟩
  · intro X wd allowed fsEval approve habs hclean hfs
    have hany : ([X ++ "/lib", X ++ "/memory.js"].any
        (fun w => (X ++ "/memory.js") == w ||
          hasPrefixStr (X ++ "/memory.js") (w ++ "/"))) = true := by
      apply List.any_eq_true.mpr
      exact ⟨X ++ "/memory.js", by simp, by simp⟩
    simp [resolvePath, habs, hclean, hfs, authorizePath, hany]
  · intro X wd p allowed fsEval approve habs hclean hin hfs
    have hin' : hasPrefixStr p ((X ++ "/lib") ++ "/") = true := by
      rw [String.append_assoc]
      exact hin
    have hany : ([X ++ "/lib", X ++ "/memory.js"].any
        (fun w => p == w || hasPrefixStr p (w ++ "/"))) = true := by
      apply List.any_eq_true.mpr
      exact ⟨X ++ "/lib", by simp, by simp [hin']⟩
    simp [resolvePath, habs, hclean, hfs, authorizePath, hany]
  · intro X wd p allowed fsEval habs hclean hfs hne1 hpre1 hne2 hpre2
    have hpre1' : hasPrefixStr p ((X ++ "/lib") ++ "/") = false := by
      rw [String.append_assoc]
      exact hpre1
    have hpre2' : hasPrefixStr p ((X ++ "/memory.js") ++ "/") = false := by
      rw [String.append_assoc]
      exact hpre2
    have hany : ([X ++ "/lib", X ++ "/memory.js"].any
        (fun w => p == w || hasPrefixStr p (w ++ "/"))) = false := by
      simp only [List.any_cons, List.any_nil, Bool.or_eq_false_iff]
      exact ⟨⟨beq_eq_false_iff_ne.mpr hne1, hpre1'⟩,
        ⟨beq_eq_false_iff_ne.mpr hne2, hpre2'⟩, trivial⟩
    simp [resolvePath, habs, hclean, hfs, authorizePath, hany,
      authorizePath.askApproval]
  · intro fsEval sb op p real hop h
    have hopb : (op == "write" || op == "delete") = true := by
      rcases hop with rfl | rfl <;> decide
    simp only [resolvePath] at h
    rcases hfe : fsEval (if hasPrefixStr p "/" then cleanPath p
        else joinPath sb.workDir p) with _ | real'
    · rw [hfe] at h
      rcases hfp : fsEval (dirPath (if hasPrefixStr p "/" then cleanPath p
          else joinPath sb.workDir p)) with _ | rp
      · rw [hfp] at h
        cases h
      · rw [hfp] at h
        obtain ⟨rfl, hex⟩ := authorizePath_ok_writable sb op p _ real hopb h
        exact hex
    · rw [hfe] at h
      obtain ⟨rfl, hex⟩ := authorizePath_ok_writable sb op p real' real hopb h
      exact hex

/-- Witness for C1 at `X = "/t"`: memory.js itself and a file in lib
are writable, policy.json is not. -/
theorem C1_writable_path_exactness_witness :
    resolvePath (fun q => if q == "/t/memory.js" then some q else none)
        ⟨["/t"], ["/t" ++ "/lib", "/t" ++ "/memory.js"], "/t"⟩ none "write"
        ("/t" ++ "/memory.js") = .ok ("/t" ++ "/memory.js") ∧
    resolvePath (fun q => if q == "/t/lib/a.js" then some q else none)
        ⟨["/t"], ["/t" ++ "/lib", "/t" ++ "/memory.js"], "/t"⟩ none "write"
        "/t/lib/a.js" = .ok "/t/lib/a.js" ∧
    resolvePath (fun q => if q == "/t/policy.json" then some q else none)
        ⟨["/t"], ["/t" ++ "/lib", "/t" ++ "/memory.js"], "/t"⟩ none "write"
        "/t/policy.json" =
      .error ("access denied: path \"" ++ "/t/policy.json" ++
        "\" is outside the sandbox") :=
  ⟨C1_writable_path_exactness.1 "/t" "/t" ["/t"]
      (fun q => if q == "/t/memory.js" then some q else none) none
      (by decide) (by decide) rfl,
   C1_writable_path_exactness.2.1 "/t" "/t" "/t/lib/a.js" ["/t"]
      (fun q => if q == "/t/lib/a.js" then some q else none) none
      (by decide) (by decide) (by decide) rfl,
   C1_writable_path_exactness.2.2.1 "/t" "/t" "/t/policy.json" ["/t"]
      (fun q => if q == "/t/policy.json" then some q else none)
      (by decide) (by decide) rfl (by decide) (by decide) (by decide)
      (by decide)⟩

/-- C9 (spec-modelled): when neither the absolute user path nor its
parent directory resolves, every sandbox filesystem operation fails
with `path not accessible` — for every op, every allowed/writable list
(even when the path lies inside an allowed root) and every approval
callback, which is therefore never consulted. -/
theorem C9_missing_parent_path_not_accessible
    (fsEval : String → Option String) (allowed writable : List String)
    (wd : String) (approve : Option (String → String → Bool))
    (op userPath : String)
    (habs : fsEval (if hasPrefixStr userPath "/" then cleanPath userPath
      else joinPath wd userPath) = none)
    (hpar : fsEval (dirPath (if hasPrefixStr userPath "/" then
      cleanPath userPath else joinPath wd userPath)) = none) :
    resolvePath fsEval ⟨allowed, writable, wd⟩ approve op userPath =
      .error ("path not accessible: " ++ userPath) := by
  simp only [resolvePath]
  rw [habs, hpar]

/-- Witness for C9: a write into a not-yet-created subdirectory of the
allowed and writable root `/t` fails, for an always-approving callback
as well. -/
theorem C9_missing_parent_witness :
    resolvePath (fun q => if q == "/t" then some q else none)
        ⟨["/t"], ["/t"], "/t"⟩ (some (fun _ _ => true)) "write"
        "/t/sub/new.txt" =
      .error ("path not accessible: " ++ "/t/sub/new.txt") :=
  C9_missing_parent_path_not_accessible
    (fun q => if q == "/t" then some q else none) ["/t"] ["/t"] "/t"
    (some (fun _ _ => true)) "write" "/t/sub/new.txt" (by decide) (by decide)

end ThinkingScript
